import Mathlib

/-!
A shallow embedding of the FileSavantAI line-delimited MCP server
(src/file_info_mcp_server.c) together with the file-metadata record
also produced by the standalone listing utility (src/file_info.c).

C strings are modelled as `List Char` (no interior NUL byte); the
filesystem and name services are a record of partial functions; every
JSON line the server writes is modelled as one `Response` value, so a
run of the server maps a list of input lines to a list of responses.
-/

namespace FileSavant

/-- Model of the fields of `struct stat` that the program reads. -/
structure CStat where
  mode : Nat
  size : Int
  uid : Nat
  gid : Nat
  mtime : Int
  atime : Int
  ctime : Int
  ino : Nat
  dev : Int
  nlink : Nat
  blksize : Int
  blocks : Int
deriving DecidableEq

/-- The filesystem and name services the server calls into:
`opendir` yields the entry names in readdir order (`none` when the
directory cannot be opened), `stat` resolves a full path, and
`getpwuid` / `getgrgid` resolve owner and group names. -/
structure Fsys where
  opendir : List Char → Option (List (List Char))
  stat : List Char → Option CStat
  getpwuid : Nat → Option (List Char)
  getgrgid : Nat → Option (List Char)

/-- `get_file_type` (both C files): resolve the `S_IFMT` bits of a mode
to a type name, first match wins. -/
def get_file_type (mode : Nat) : List Char :=
  if mode &&& 0o170000 = 0o040000 then "directory".toList
  else if mode &&& 0o170000 = 0o100000 then "file".toList
  else if mode &&& 0o170000 = 0o120000 then "symlink".toList
  else if mode &&& 0o170000 = 0o020000 then "char_device".toList
  else if mode &&& 0o170000 = 0o060000 then "block_device".toList
  else if mode &&& 0o170000 = 0o010000 then "fifo".toList
  else if mode &&& 0o170000 = 0o140000 then "socket".toList
  else "unknown".toList

/-- The ten permission characters printed one `printf("%c", ...)` at a
time in `print_file_json_compact` / `print_file_info_json`: the
directory flag, then owner, group and other read-write-execute bits. -/
def permString (mode : Nat) : List Char :=
  [ if mode &&& 0o170000 = 0o040000 then 'd' else '-',
    if mode &&& 0o400 ≠ 0 then 'r' else '-',
    if mode &&& 0o200 ≠ 0 then 'w' else '-',
    if mode &&& 0o100 ≠ 0 then 'x' else '-',
    if mode &&& 0o040 ≠ 0 then 'r' else '-',
    if mode &&& 0o020 ≠ 0 then 'w' else '-',
    if mode &&& 0o010 ≠ 0 then 'x' else '-',
    if mode &&& 0o004 ≠ 0 then 'r' else '-',
    if mode &&& 0o002 ≠ 0 then 'w' else '-',
    if mode &&& 0o001 ≠ 0 then 'x' else '-' ]

/-- One metadata record of the result array (the compact JSON object
written by `print_file_json_compact`). -/
structure FileMetadata where
  name : List Char
  path : List Char
  size : Int
  owner : List Char
  group : List Char
  uid : Nat
  gid : Nat
  permissions : Nat
  permissions_readable : List Char
  ftype : List Char
  modified : Int
  accessed : Int
  changed : Int
  inode : Nat
  device : Int
  hard_links : Nat
  block_size : Int
  blocks : Int
deriving DecidableEq

/-- The `snprintf(fullpath, ..., "%s/%s", directory, name)` join used
for the `stat` call. -/
def joinPath (d n : List Char) : List Char := d ++ '/' :: n

/-- The displayed `path` field: bare name when the directory is
exactly ".", otherwise the slash join (lines 56-60 of the server). -/
def displayPath (d n : List Char) : List Char :=
  if d = ['.'] then n else d ++ '/' :: n

/-- `print_file_json_compact`: build the metadata record for one entry
from its stat result and the name services. -/
def print_file_json_compact (fs : Fsys) (directory filename : List Char)
    (st : CStat) : FileMetadata :=
  { name := filename
    path := displayPath directory filename
    size := st.size
    owner := (fs.getpwuid st.uid).getD "unknown".toList
    group := (fs.getgrgid st.gid).getD "unknown".toList
    uid := st.uid
    gid := st.gid
    permissions := st.mode &&& 0o777
    permissions_readable := permString st.mode
    ftype := get_file_type st.mode
    modified := st.mtime
    accessed := st.atime
    changed := st.ctime
    inode := st.ino
    device := st.dev
    hard_links := st.nlink
    block_size := st.blksize
    blocks := st.blocks }

/-- `entry->d_name[0] == '.'`: the skip test of the readdir loop. -/
def is_hidden (n : List Char) : Bool :=
  match n with
  | '.' :: _ => true
  | _ => false

/-- One line the server writes: the startup notification, the tool
catalog, the handshake result, a tool-call result array, or an error
object. -/
inductive Response where
  | startupNote
  | toolsList (id : Int)
  | initResult (id : Int)
  | listResult (id : Int) (files : List FileMetadata)
  | errorResp (id : Int) (code message : List Char)
deriving DecidableEq

/-- The id a response line carries (`none` for the unsolicited
startup notification, which has no `"id"` field). -/
def Response.idOf : Response → Option Int
  | .startupNote => none
  | .toolsList id => some id
  | .initResult id => some id
  | .listResult id _ => some id
  | .errorResp id _ _ => some id

/-- `handle_list_files`: open the directory (error response on
failure), then collect one record per entry that is not hidden and
whose `stat` call succeeds. -/
def handle_list_files (fs : Fsys) (id : Int) (directory : List Char) :
    Response :=
  match fs.opendir directory with
  | none => .errorResp id "directory_error".toList "Cannot open directory".toList
  | some entries =>
      .listResult id
        ((entries.filter (fun n => !is_hidden n)).filterMap
          (fun n => (fs.stat (joinPath directory n)).map
            (print_file_json_compact fs directory n)))

/-- C `strstr`: the suffix of the haystack starting at the first
occurrence of the needle, `none` when absent. -/
def strstr : List Char → List Char → Option (List Char)
  | [], needle => if needle.isPrefixOf ([] : List Char) then some [] else none
  | c :: t, needle =>
      if needle.isPrefixOf (c :: t) then some (c :: t) else strstr t needle

/-- `isspace` of the C locale, as used by `atoi`. -/
def isSpaceC (c : Char) : Bool :=
  c = ' ' || c = '\t' || c = '\n' || c = '\x0b' || c = '\x0c' || c = '\r'

/-- The digit-consuming loop of C `atoi`: accumulate base-10 digits,
stop at the first non-digit. -/
def atoiDigits : List Char → Int → Int
  | [], acc => acc
  | c :: t, acc =>
      if c.isDigit then atoiDigits t (acc * 10 + ((c.toNat : Int) - 48)) else acc

/-- C `atoi`: skip leading whitespace, an optional sign, then digits;
0 when no digits follow. -/
def atoi (s : List Char) : Int :=
  let s1 := s.dropWhile isSpaceC
  if s1.head? = some '-' then - atoiDigits (s1.drop 1) 0
  else if s1.head? = some '+' then atoiDigits (s1.drop 1) 0
  else atoiDigits s1 0

/-- The literal marker located by `extract_id`. -/
def idMarker : List Char := "\"id\":".toList

/-- `extract_id`: -1 when the marker is absent, otherwise `atoi` of
what follows it. -/
def extract_id (json : List Char) : Int :=
  match strstr json idMarker with
  | none => -1
  | some suff => atoi (suff.drop 5)

/-- The characters strictly before the first occurrence of `c`
(the `strchr` + `strncpy` step), `none` when `c` never occurs. -/
def takeUntilChar (s : List Char) (c : Char) : Option (List Char) :=
  match s with
  | [] => none
  | x :: t => if x = c then some [] else (takeUntilChar t c).map (x :: ·)

/-- `extract_string_value`: locate the pattern `"key":"`, then take the
characters up to the next double quote; `none` when the pattern is
absent or no closing quote follows. -/
def extract_string_value (json key : List Char) : Option (List Char) :=
  let pat : List Char := '"' :: key ++ ['"', ':', '"']
  match strstr json pat with
  | none => none
  | some suff => takeUntilChar (suff.drop pat.length) '"'

/-- The three substring patterns of the dispatcher in `main`. -/
def toolsListPat : List Char := "\"method\":\"tools/list\"".toList

def listFilesPat : List Char := "\"name\":\"list_files\"".toList

def initPat : List Char := "\"method\":\"initialize\"".toList

def dirKey : List Char := "directory".toList

/-- One iteration of the `main` loop on an already newline-stripped
line: extract the id, then dispatch by substring presence in source
order (tools/list, then list_files, then initialize, else nothing). -/
def processLine (fs : Fsys) (line : List Char) : List Response :=
  if (strstr line toolsListPat).isSome then
    [.toolsList (extract_id line)]
  else if (strstr line listFilesPat).isSome then
    match extract_string_value line dirKey with
    | some directory => [handle_list_files fs (extract_id line) directory]
    | none =>
        [.errorResp (extract_id line)
          "invalid_params".toList "Missing directory parameter".toList]
  else if (strstr line initPat).isSome then
    [.initResult (extract_id line)]
  else []

/-- The whole `while (fgets ...)` loop over the input lines. -/
def processLines (fs : Fsys) : List (List Char) → List Response
  | [] => []
  | l :: rest => processLine fs l ++ processLines fs rest

/-- `main`: the startup notification, then the loop. -/
def serverRun (fs : Fsys) (input : List (List Char)) : List Response :=
  .startupNote :: processLines fs input

/-- The base-10 value of a digit string (what a run of consumed digit
characters denotes). -/
def digitsVal (ds : List Char) : Int :=
  ds.foldl (fun a c => a * 10 + ((c.toNat : Int) - 48)) 0

/-- A concrete stat result (a regular file of mode 644 and size 5),
used to instantiate the theorems below at concrete inputs. -/
def sampleStat : CStat :=
  { mode := 0o100644, size := 5, uid := 0, gid := 0, mtime := 10, atime := 11,
    ctime := 12, ino := 7, dev := 3, nlink := 1, blksize := 4096, blocks := 8 }

/-- The readdir order of the one concrete directory of `sampleFs`:
a visible statable file, a dotfile, and a visible entry whose stat
call fails. -/
def sampleEntries : List (List Char) :=
  ["a.txt".toList, ".hidden".toList, "bad".toList]

/-- A concrete filesystem: only the directory "." opens, only
"./a.txt" stats, and no uid/gid resolves to a name. -/
def sampleFs : Fsys where
  opendir := fun d => if d = ['.'] then some sampleEntries else none
  stat := fun p =>
    if p = joinPath ['.'] "a.txt".toList then some sampleStat else none
  getpwuid := fun _ => none
  getgrgid := fun _ => none

/-- A request line that contains both the tools/list pattern and the
list_files pattern. -/
def lineBoth : List Char :=
  "\x7b\"id\":1,\"method\":\"tools/list\",\"name\":\"list_files\"\x7d".toList

/-- A well-formed list_files invocation on the directory ".". -/
def lineListDot : List Char :=
  "\x7b\"id\":2,\"name\":\"list_files\",\"arguments\":\x7b\"directory\":\".\"\x7d\x7d".toList

/-- A list_files invocation naming a directory that cannot be opened. -/
def lineBadDir : List Char :=
  "\x7b\"id\":9,\"name\":\"list_files\",\"arguments\":\x7b\"directory\":\"/nope\"\x7d\x7d".toList

/-- A list_files invocation with no directory parameter at all. -/
def lineMissing : List Char :=
  "\x7b\"id\":4,\"name\":\"list_files\"\x7d".toList

/-- A list_files invocation whose directory value never closes its
quote (the line is truncated after the value start). -/
def lineNoClose : List Char :=
  "\x7b\"id\":7,\"name\":\"list_files\",\"params\":\x7b\"directory\":\"/tmp".toList

/-- An initialize request line. -/
def lineInit : List Char :=
  "\x7b\"id\":5,\"method\":\"initialize\"\x7d".toList

/-- A line matching none of the three dispatch patterns. -/
def lineNoise : List Char := "hello world".toList

/-- A line with an id of 42 followed by trailing garbage. -/
def lineId42 : List Char := "\x7b\"id\":42\x7d".toList

/-- The one record the listing of "." under `sampleFs` produces. -/
def sampleRec : FileMetadata :=
  print_file_json_compact sampleFs ['.'] "a.txt".toList sampleStat

theorem listingNames (fs : Fsys) (d : List Char) (l : List (List Char)) :
    (((l.filter (fun n => !is_hidden n)).filterMap
        (fun n => (fs.stat (joinPath d n)).map
          (print_file_json_compact fs d n))).map FileMetadata.name)
      = l.filter (fun n => !is_hidden n && (fs.stat (joinPath d n)).isSome) := by
  induction l with
  | nil => rfl
  | cons n t ih =>
    cases hh : is_hidden n with
    | true => simp [List.filter_cons, hh, ih]
    | false =>
      cases hst : fs.stat (joinPath d n) with
      | none => simp [List.filter_cons, hh, List.filterMap_cons, hst, ih]
      | some st =>
        simp [List.filter_cons, hh, List.filterMap_cons, hst, ih,
          print_file_json_compact]

theorem handle_idOf (fs : Fsys) (id : Int) (d : List Char) :
    (handle_list_files fs id d).idOf = some id := by
  rcases hfs : fs.opendir d with _ | entries <;>
    simp [handle_list_files, hfs, Response.idOf]

/-- C5: the permission-readable string is exactly 10 characters, in
the fixed order type flag, owner rwx, group rwx, other rwx, each
character the corresponding letter or a dash, and the string is a
function of the mode alone. -/
theorem claim_c5_perm_string (mode : Nat) :
    (permString mode).length = 10 ∧
    (permString mode).getD 0 ' ' =
      (if mode &&& 0o170000 = 0o040000 then 'd' else '-') ∧
    (permString mode).getD 1 ' ' = (if mode &&& 0o400 ≠ 0 then 'r' else '-') ∧
    (permString mode).getD 2 ' ' = (if mode &&& 0o200 ≠ 0 then 'w' else '-') ∧
    (permString mode).getD 3 ' ' = (if mode &&& 0o100 ≠ 0 then 'x' else '-') ∧
    (permString mode).getD 4 ' ' = (if mode &&& 0o040 ≠ 0 then 'r' else '-') ∧
    (permString mode).getD 5 ' ' = (if mode &&& 0o020 ≠ 0 then 'w' else '-') ∧
    (permString mode).getD 6 ' ' = (if mode &&& 0o010 ≠ 0 then 'x' else '-') ∧
    (permString mode).getD 7 ' ' = (if mode &&& 0o004 ≠ 0 then 'r' else '-') ∧
    (permString mode).getD 8 ' ' = (if mode &&& 0o002 ≠ 0 then 'w' else '-') ∧
    (permString mode).getD 9 ' ' = (if mode &&& 0o001 ≠ 0 then 'x' else '-') ∧
    (∀ c ∈ permString mode, c = 'd' ∨ c = 'r' ∨ c = 'w' ∨ c = 'x' ∨ c = '-') ∧
    ∀ m2 : Nat, mode = m2 → permString mode = permString m2 := by
  refine ⟨rfl, rfl, rfl, rfl, rfl, rfl, rfl, rfl, rfl, rfl, rfl, ?_,
    fun m2 h => h ▸ rfl⟩
  intro c hc
  simp only [permString, List.mem_cons, List.not_mem_nil, or_false] at hc
  rcases hc with rfl | rfl | rfl | rfl | rfl | rfl | rfl | rfl | rfl | rfl <;>
    split <;> simp

theorem claim_c5_perm_string_witness :
    'r' ∈ permString 0o100644 ∧
    ('r' = 'd' ∨ 'r' = 'r' ∨ 'r' = 'w' ∨ 'r' = 'x' ∨ 'r' = '-') :=
  ⟨by decide,
    (claim_c5_perm_string 0o100644).2.2.2.2.2.2.2.2.2.2.2.1 'r' (by decide)⟩

/-- C7: a line matching none of the three dispatch patterns produces
no output at all, and the loop proceeds to the remaining lines. -/
theorem claim_c7_silent_drop (fs : Fsys) (line : List Char)
    (rest : List (List Char))
    (h1 : (strstr line toolsListPat).isSome = false)
    (h2 : (strstr line listFilesPat).isSome = false)
    (h3 : (strstr line initPat).isSome = false) :
    processLine fs line = [] ∧
    processLines fs (line :: rest) = processLines fs rest := by
  constructor
  · simp [processLine, h1, h2, h3]
  · simp [processLines, processLine, h1, h2, h3]

theorem claim_c7_silent_drop_witness :
    (strstr lineNoise toolsListPat).isSome = false ∧
    (strstr lineNoise listFilesPat).isSome = false ∧
    (strstr lineNoise initPat).isSome = false ∧
    (processLine sampleFs lineNoise = [] ∧
      processLines sampleFs (lineNoise :: [lineInit]) =
        processLines sampleFs [lineInit]) :=
  ⟨by decide, by decide, by decide,
    claim_c7_silent_drop sampleFs lineNoise [lineInit]
      (by decide) (by decide) (by decide)⟩

/-- C3: a line dispatched as a list_files invocation whose directory
parameter cannot be extracted is answered, whatever else the line
contains, by an invalid_params error with the fixed message
"Missing directory parameter". -/
theorem claim_c3_missing_directory (fs : Fsys) (line : List Char)
    (hTools : (strstr line toolsListPat).isSome = false)
    (hName : (strstr line listFilesPat).isSome = true)
    (hDir : extract_string_value line dirKey = none) :
    processLine fs line =
      [Response.errorResp (extract_id line) "invalid_params".toList
        "Missing directory parameter".toList] := by
  simp [processLine, hTools, hName, hDir]

theorem claim_c3_missing_directory_witness :
    (strstr lineMissing toolsListPat).isSome = false ∧
    (strstr lineMissing listFilesPat).isSome = true ∧
    extract_string_value lineMissing dirKey = none ∧
    processLine sampleFs lineMissing =
      [Response.errorResp 4 "invalid_params".toList
        "Missing directory parameter".toList] :=
  ⟨by decide, by decide, by decide,
    claim_c3_missing_directory sampleFs lineMissing
      (by decide) (by decide) (by decide)⟩

/-- C2: an invocation naming an unopenable directory yields exactly
one error response of code directory_error, no result array at all,
and the loop keeps processing the remaining input lines. -/
theorem claim_c2_directory_error (fs : Fsys) (line : List Char)
    (rest : List (List Char)) (d : List Char)
    (hTools : (strstr line toolsListPat).isSome = false)
    (hName : (strstr line listFilesPat).isSome = true)
    (hDir : extract_string_value line dirKey = some d)
    (hOpen : fs.opendir d = none) :
    processLines fs (line :: rest) =
      Response.errorResp (extract_id line) "directory_error".toList
          "Cannot open directory".toList
        :: processLines fs rest := by
  simp [processLines, processLine, hTools, hName, hDir,
    handle_list_files, hOpen]

theorem claim_c2_directory_error_witness :
    (strstr lineBadDir toolsListPat).isSome = false ∧
    (strstr lineBadDir listFilesPat).isSome = true ∧
    extract_string_value lineBadDir dirKey = some "/nope".toList ∧
    sampleFs.opendir "/nope".toList = none ∧
    processLines sampleFs (lineBadDir :: [lineInit]) =
      Response.errorResp 9 "directory_error".toList
          "Cannot open directory".toList
        :: processLines sampleFs [lineInit] :=
  ⟨by decide, by decide, by decide, by decide,
    claim_c2_directory_error sampleFs lineBadDir [lineInit] "/nope".toList
      (by decide) (by decide) (by decide) (by decide)⟩

/-- C1: on an openable directory, the result array holds exactly one
record per immediate entry that is not hidden and whose stat call
succeeds; hidden entries never appear, and stat failures are dropped
without turning the call into an error. -/
theorem claim_c1_listing_exact (fs : Fsys) (id : Int) (d : List Char)
    (entries : List (List Char)) (h : fs.opendir d = some entries) :
    ∃ recs : List FileMetadata,
      handle_list_files fs id d = Response.listResult id recs ∧
      recs.map FileMetadata.name =
        entries.filter
          (fun n => !is_hidden n && (fs.stat (joinPath d n)).isSome) ∧
      ∀ r ∈ recs, is_hidden r.name = false := by
  refine ⟨(entries.filter (fun n => !is_hidden n)).filterMap
      (fun n => (fs.stat (joinPath d n)).map (print_file_json_compact fs d n)),
    by simp [handle_list_files, h], listingNames fs d entries, ?_⟩
  intro r hr
  have hmem : r.name ∈ entries.filter
      (fun n => !is_hidden n && (fs.stat (joinPath d n)).isSome) := by
    rw [← listingNames fs d entries]
    exact List.mem_map_of_mem FileMetadata.name hr
  have hpred := (List.mem_filter.mp hmem).2
  have hand := (Bool.and_eq_true _ _).mp hpred
  simpa using hand.1

theorem claim_c1_listing_exact_witness :
    sampleFs.opendir ['.'] = some sampleEntries ∧
    ∃ recs : List FileMetadata,
      handle_list_files sampleFs 1 ['.'] = Response.listResult 1 recs ∧
      recs.map FileMetadata.name =
        sampleEntries.filter
          (fun n => !is_hidden n && (sampleFs.stat (joinPath ['.'] n)).isSome) ∧
      ∀ r ∈ recs, is_hidden r.name = false :=
  ⟨by decide, claim_c1_listing_exact sampleFs 1 ['.'] sampleEntries (by decide)⟩

/-- C10: every record's path field is the bare entry name when the
requested directory is exactly ".", and the slash join of directory
and name otherwise. -/
theorem claim_c10_path_join (fs : Fsys) (id : Int) (d : List Char)
    (entries : List (List Char)) (recs : List FileMetadata)
    (hOpen : fs.opendir d = some entries)
    (hRes : handle_list_files fs id d = Response.listResult id recs) :
    ∀ r ∈ recs, r.path = if d = ['.'] then r.name else d ++ '/' :: r.name := by
  have hRes2 : Response.listResult id
      ((entries.filter (fun n => !is_hidden n)).filterMap
        (fun n => (fs.stat (joinPath d n)).map
          (print_file_json_compact fs d n))) = Response.listResult id recs := by
    rw [← hRes]
    simp [handle_list_files, hOpen]
  injection hRes2 with hid hrecs
  subst hrecs
  intro r hr
  rcases List.mem_filterMap.mp hr with ⟨n, hn, hmap⟩
  rcases Option.map_eq_some'.mp hmap with ⟨st, hst, hpr⟩
  rw [← hpr]
  simp [print_file_json_compact, displayPath]

theorem claim_c10_path_join_witness :
    sampleFs.opendir ['.'] = some sampleEntries ∧
    handle_list_files sampleFs 2 ['.'] = Response.listResult 2 [sampleRec] ∧
    ∀ r ∈ [sampleRec],
      r.path = if (['.'] : List Char) = ['.'] then r.name
        else ['.'] ++ '/' :: r.name :=
  ⟨by decide, by decide,
    claim_c10_path_join sampleFs 2 ['.'] sampleEntries [sampleRec]
      (by decide) (by decide)⟩

/-- C4: dispatch is by substring presence, first match wins, in the
order tools/list, then list_files, then initialize; a line containing
both the tools/list and the list_files patterns gets the tool catalog
and is never dispatched as a tool invocation. -/
theorem claim_c4_dispatch_precedence (fs : Fsys) (line : List Char) :
    ((strstr line toolsListPat).isSome = true →
      processLine fs line = [Response.toolsList (extract_id line)] ∧
      ∀ resp ∈ processLine fs line,
        (∀ i fl, resp ≠ Response.listResult i fl) ∧
        ∀ i c m, resp ≠ Response.errorResp i c m) ∧
    ((strstr line toolsListPat).isSome = false →
      (strstr line listFilesPat).isSome = true →
      ∀ d, extract_string_value line dirKey = some d →
        processLine fs line = [handle_list_files fs (extract_id line) d]) ∧
    ((strstr line toolsListPat).isSome = false →
      (strstr line listFilesPat).isSome = false →
      (strstr line initPat).isSome = true →
      processLine fs line = [Response.initResult (extract_id line)]) := by
  refine ⟨fun h1 => ?_,
    fun h1 h2 d hd => by simp [processLine, h1, h2, hd],
    fun h1 h2 h3 => by simp [processLine, h1, h2, h3]⟩
  have hp : processLine fs line = [Response.toolsList (extract_id line)] := by
    simp [processLine, h1]
  refine ⟨hp, ?_⟩
  intro resp hresp
  rw [hp] at hresp
  simp only [List.mem_singleton] at hresp
  subst hresp
  exact ⟨fun i fl hcon => Response.noConfusion hcon,
    fun i c m hcon => Response.noConfusion hcon⟩

theorem claim_c4_dispatch_precedence_witness :
    (strstr lineBoth toolsListPat).isSome = true ∧
    (strstr lineBoth listFilesPat).isSome = true ∧
    (processLine sampleFs lineBoth =
        [Response.toolsList (extract_id lineBoth)] ∧
      ∀ resp ∈ processLine sampleFs lineBoth,
        (∀ i fl, resp ≠ Response.listResult i fl) ∧
        ∀ i c m, resp ≠ Response.errorResp i c m) :=
  ⟨by decide, by decide,
    (claim_c4_dispatch_precedence sampleFs lineBoth).1 (by decide)⟩

/-- C8: every response produced for an input line carries the id
extracted from that line; only the unsolicited startup notification
is emitted without an id. -/
theorem claim_c8_id_invariant (fs : Fsys) (input : List (List Char)) :
    (∀ line resp, resp ∈ processLine fs line →
      resp.idOf = some (extract_id line)) ∧
    serverRun fs input = Response.startupNote :: processLines fs input ∧
    Response.idOf Response.startupNote = none := by
  refine ⟨?_, rfl, rfl⟩
  intro line resp h
  unfold processLine at h
  split at h
  · simp only [List.mem_singleton] at h
    subst h
    rfl
  · split at h
    · split at h
      · simp only [List.mem_singleton] at h
        subst h
        exact handle_idOf fs (extract_id line) _
      · simp only [List.mem_singleton] at h
        subst h
        rfl
    · split at h
      · simp only [List.mem_singleton] at h
        subst h
        rfl
      · simp at h

theorem claim_c8_id_invariant_witness :
    Response.toolsList 1 ∈ processLine sampleFs lineBoth ∧
    (Response.toolsList 1).idOf = some (extract_id lineBoth) :=
  ⟨by decide,
    (claim_c8_id_invariant sampleFs []).1 lineBoth (Response.toolsList 1)
      (by decide)⟩

theorem dropWhile_cons_false (p : Char → Bool) (a : Char) (l : List Char)
    (h : p a = false) : List.dropWhile p (a :: l) = a :: l := by
  simp [List.dropWhile, h]

theorem digit_not_space (c : Char) (h : c.isDigit = true) :
    isSpaceC c = false := by
  cases hs : isSpaceC c
  · rfl
  · exfalso
    simp only [isSpaceC, Bool.or_eq_true, decide_eq_true_eq] at hs
    rcases hs with ((((hs | hs) | hs) | hs) | hs) | hs <;> subst hs <;>
      exact absurd h (by decide)

theorem digit_ne_dash (c : Char) (h : c.isDigit = true) : c ≠ '-' :=
  fun hEq => absurd (hEq ▸ h) (by decide)

theorem digit_ne_plus (c : Char) (h : c.isDigit = true) : c ≠ '+' :=
  fun hEq => absurd (hEq ▸ h) (by decide)

theorem atoiDigits_append (ds g : List Char)
    (hds : ∀ c ∈ ds, c.isDigit = true)
    (hg : ∀ c ∈ g.take 1, c.isDigit = false) :
    ∀ acc : Int, atoiDigits (ds ++ g) acc =
      ds.foldl (fun a c => a * 10 + ((c.toNat : Int) - 48)) acc := by
  induction ds with
  | nil =>
    intro acc
    cases g with
    | nil => rfl
    | cons c t =>
      have hc : c.isDigit = false := hg c (by simp)
      simp [atoiDigits, hc]
  | cons c t ih =>
    intro acc
    have hc : c.isDigit = true := hds c (by simp)
    simp only [List.cons_append, atoiDigits, hc, if_true, List.foldl_cons]
    exact ih (fun x hx => hds x (by simp [hx])) _

theorem atoi_digit_run (c : Char) (t g : List Char)
    (hc : c.isDigit = true) (ht : ∀ x ∈ t, x.isDigit = true)
    (hg : ∀ x ∈ g.take 1, x.isDigit = false) :
    atoi ((c :: t) ++ g) = digitsVal (c :: t) := by
  have hsp : isSpaceC c = false := digit_not_space c hc
  have hds : ∀ x ∈ c :: t, x.isDigit = true := by
    intro x hx
    rcases List.mem_cons.mp hx with rfl | hx2
    · exact hc
    · exact ht x hx2
  unfold atoi
  simp only [List.cons_append, dropWhile_cons_false isSpaceC c (t ++ g) hsp,
    List.head?_cons, Option.some.injEq]
  rw [if_neg (digit_ne_dash c hc), if_neg (digit_ne_plus c hc)]
  exact atoiDigits_append (c :: t) g hds hg 0

theorem takeUntilChar_eq_none (s : List Char) (c : Char) (h : c ∉ s) :
    takeUntilChar s c = none := by
  induction s with
  | nil => rfl
  | cons x t ih =>
    have hx : ¬ x = c := fun hEq => h (by simp [hEq])
    simp [takeUntilChar, hx, ih (fun hc => h (List.mem_cons_of_mem x hc))]

/-- C6: id extraction yields -1 when the marker is absent from the
line; when the marker is present and followed by a run of digits, it
yields the value of that run, stopping at the first non-digit and
tolerating any trailing garbage. -/
theorem claim_c6_extract_id (line : List Char) :
    (strstr line idMarker = none → extract_id line = -1) ∧
    ∀ ds g : List Char,
      strstr line idMarker = some (idMarker ++ (ds ++ g)) →
      ds ≠ [] →
      (∀ c ∈ ds, c.isDigit = true) →
      (∀ c ∈ g.take 1, c.isDigit = false) →
      extract_id line = digitsVal ds := by
  constructor
  · intro h
    simp [extract_id, h]
  · intro ds g hss hne hds hg
    cases ds with
    | nil => exact absurd rfl hne
    | cons c t =>
      have hdrop : (idMarker ++ (c :: t ++ g)).drop 5 = (c :: t) ++ g := by
        have hlen : idMarker.length = 5 := rfl
        rw [← hlen, List.drop_left]
      have hEx : extract_id line = atoi ((c :: t) ++ g) := by
        simp only [extract_id, hss, hdrop]
      rw [hEx]
      exact atoi_digit_run c t g (hds c (by simp))
        (fun x hx => hds x (by simp [hx])) hg

theorem claim_c6_extract_id_witness :
    strstr lineId42 idMarker = some (idMarker ++ ("42".toList ++ ['\x7d'])) ∧
    "42".toList ≠ [] ∧
    extract_id lineId42 = digitsVal "42".toList ∧
    digitsVal "42".toList = 42 :=
  ⟨by decide, by decide,
    (claim_c6_extract_id lineId42).2 "42".toList ['\x7d'] (by decide)
      (by decide) (by decide) (by decide),
    by decide⟩

/-- C9: when the directory pattern occurs but no closing quote follows
the value start, extraction reports the parameter missing, so the
invocation is answered with the invalid_params error. -/
theorem claim_c9_unterminated_value (fs : Fsys) (line suff : List Char)
    (hTools : (strstr line toolsListPat).isSome = false)
    (hName : (strstr line listFilesPat).isSome = true)
    (hPat : strstr line ('"' :: dirKey ++ ['"', ':', '"']) = some suff)
    (hNoQ : '"' ∉ suff.drop ('"' :: dirKey ++ ['"', ':', '"']).length) :
    extract_string_value line dirKey = none ∧
    processLine fs line =
      [Response.errorResp (extract_id line) "invalid_params".toList
        "Missing directory parameter".toList] := by
  have hext : extract_string_value line dirKey = none := by
    simp only [extract_string_value, hPat]
    exact takeUntilChar_eq_none _ _ hNoQ
  exact ⟨hext, by simp [processLine, hTools, hName, hext]⟩

theorem claim_c9_unterminated_value_witness :
    (strstr lineNoClose toolsListPat).isSome = false ∧
    (strstr lineNoClose listFilesPat).isSome = true ∧
    strstr lineNoClose ('"' :: dirKey ++ ['"', ':', '"']) =
      some "\"directory\":\"/tmp".toList ∧
    '"' ∉ ("\"directory\":\"/tmp".toList).drop
        ('"' :: dirKey ++ ['"', ':', '"']).length ∧
    (extract_string_value lineNoClose dirKey = none ∧
      processLine sampleFs lineNoClose =
        [Response.errorResp 7 "invalid_params".toList
          "Missing directory parameter".toList]) :=
  ⟨by decide, by decide, by decide, by decide,
    claim_c9_unterminated_value sampleFs lineNoClose
      "\"directory\":\"/tmp".toList
      (by decide) (by decide) (by decide) (by decide)⟩

end FileSavant
